import Mathlib

/-!
Shallow embedding of the CSUNetSec/protoparse core in Lean 4, together with
theorems settling the specification claims about it.

Bytes are modelled as `Nat` (with values < 256 on real inputs); byte buffers
as `List Nat`; Go strings as `List Char`; Go `nil`-able results as `Option`;
Go run-time panics (out-of-range slice indexing) as explicit `panic`-like
constructors of the result types.
-/

namespace Protoparse

/-- Big-endian 16-bit read of the first two bytes of a buffer
(`binary.BigEndian.Uint16`). -/
def be16 (l : List Nat) : Nat := 256 * l.getD 0 0 + l.getD 1 0

/-- Big-endian 32-bit read of the first four bytes of a buffer
(`binary.BigEndian.Uint32`). -/
def be32 (l : List Nat) : Nat :=
  16777216 * l.getD 0 0 + 65536 * l.getD 1 0 + 256 * l.getD 2 0 + l.getD 3 0

/-- Big-endian 32-bit encode (`binary.Write(..., BigEndian, uint32(n))`). -/
def be32enc (n : Nat) : List Nat :=
  [n / 16777216 % 256, n / 65536 % 256, n / 256 % 256, n % 256]

/-- The eight characters `fmt.Fprintf(&buffer, "%08b", b)` produces for a
byte `b`: its bits most-significant first, as the characters 0 and 1. -/
def byteBits (b : Nat) : List Char :=
  (List.range 8).map (fun j => if b.testBit (7 - j) then '1' else '0')

/-- The bit-string (as characters) of a byte buffer, one byte after the
other, each most-significant bit first. -/
def bitChars (l : List Nat) : List Char := (l.map byteBits).flatten

end Protoparse

namespace Protoparse.Util
open Protoparse

/-- Byte `i` of Go's `net.CIDRMask(ones, bits)`: the first `ones` bits of
the mask are one, the rest zero. -/
def cidrMaskByte (ones i : Nat) : Nat := 255 - (255 >>> (ones - 8 * i))

/-- Go's `net.CIDRMask(ones, bits)` as a byte list (callers guarantee
`ones ≤ bits` and `8 ∣ bits`). -/
def goCIDRMask (ones bits : Nat) : List Nat :=
  (List.range (bits / 8)).map (cidrMaskByte ones)

/-- The 12-byte prefix `v4InV6Prefix` that marks an IPv4-mapped IPv6
address in Go's `net` package. -/
def v4InV6 : List Nat := [0, 0, 0, 0, 0, 0, 0, 0, 0, 0, 255, 255]

/-- Go's `net.IP.To4`: a 4-byte address is returned as is, a 16-byte
IPv4-mapped address is narrowed to its last 4 bytes, anything else is nil. -/
def goTo4 (ip : List Nat) : Option (List Nat) :=
  if ip.length = 4 then some ip
  else if ip.length = 16 ∧ ip.take 12 = v4InV6 then some (ip.drop 12)
  else none

/-- Go's `net.IP.To16`: a 4-byte address is widened with the IPv4-mapped
prefix, a 16-byte address is returned as is, anything else is nil. -/
def goTo16 (ip : List Nat) : Option (List Nat) :=
  if ip.length = 4 then some (v4InV6 ++ ip)
  else if ip.length = 16 then some ip
  else none

/-- Go's `net.IP.Mask`: after the two mixed-width adjustments, the address
and the mask are combined bytewise with AND; mismatched lengths give nil. -/
def goMask (ip mask : List Nat) : Option (List Nat) :=
  let mask' := if mask.length = 16 ∧ ip.length = 4 ∧ mask.take 12 = List.replicate 12 255
    then mask.drop 12 else mask
  let ip' := if mask'.length = 4 ∧ ip.length = 16 ∧ ip.take 12 = v4InV6
    then ip.drop 12 else ip
  if ip'.length = mask'.length then some (ip'.zipWith (· &&& ·) mask') else none

/-- The bytes Go ranges over after `ip.Mask(...).To4()` (or `.To16()`):
a nil intermediate leaves a nil address, which contributes no bytes. -/
def optBytes (o : Option (List Nat)) : List Nat := o.getD []

/-- Go string slicing `s[:n]`: out-of-range `n` is a run-time panic,
modelled as `none`. -/
def strTake (s : List Char) (n : Nat) : Option (List Char) :=
  if n ≤ s.length then some (s.take n) else none

/-- `util.IpToRadixkey` (newest variant, `src/util/util.go`): binary string
of the CIDR-masked address, truncated to `mask` characters; empty string
for an empty address or a mask wider than the address family. -/
def IpToRadixkey (b : List Nat) (mask : Nat) : Option (List Char) :=
  if b.length = 0 then some []
  else if (goTo4 b).isSome then
    if 32 < mask then some []
    else strTake (bitChars (optBytes ((goMask b (goCIDRMask mask 32)).bind goTo4))) mask
  else
    if 128 < mask then some []
    else strTake (bitChars (optBytes ((goMask b (goCIDRMask mask 128)).bind goTo16))) mask

/-- `util.PrefixTree`, modelled as the list of radix keys inserted so far.
Modelled from the spec: the radix tree itself is the external
`armon/go-radix` library, specified only at the boundary — `Insert` records
a key, and `LongestPrefix(s)` reports found exactly when some inserted key
is a prefix of `s`. -/
structure PrefixTree where
  keys : List (List Char)
  deriving DecidableEq

/-- `util.NewPrefixTree`. -/
def NewPrefixTree : PrefixTree := ⟨[]⟩

/-- `util.PrefixTree.Add`: inserts the radix key of `(ip, mask)`; a panic
in key construction (`none`) propagates. -/
def PrefixTree.Add (t : PrefixTree) (ip : List Nat) (mask : Nat) : Option PrefixTree :=
  (IpToRadixkey ip mask).map (fun k => ⟨k :: t.keys⟩)

/-- `util.PrefixTree.ContainsIpMask`: longest-prefix-match lookup of the
radix key of `(ip, mask)` (see `PrefixTree` for the modelled semantics of
the external radix tree's `LongestPrefix`). -/
def PrefixTree.ContainsIpMask (t : PrefixTree) (ip : List Nat) (mask : Nat) : Option Bool :=
  (IpToRadixkey ip mask).map (fun k => t.keys.any (fun key => key.isPrefixOf k))

end Protoparse.Util

namespace Protoparse.Mrt
open Protoparse

/-- MRT fixed header length (`MRT_HEADER_LEN = 12`). -/
def MRT_HEADER_LEN : Nat := 12

/-- `mrt.SplitMrt` (`src/protocol/mrt/mrt.go`): the bufio split function
for MRT streams. Returns the advance count and the optional token; the Go
function's error result is always nil in this variant, so it is omitted.
In the model `cap data = data.length`. -/
def SplitMrt (data : List Nat) (atEOF : Bool) : Nat × Option (List Nat) :=
  let dataLen := data.length
  if atEOF ∧ dataLen = 0 then (0, none)
  else if atEOF then (dataLen, some data)
  else if dataLen < MRT_HEADER_LEN then (0, none)
  else
    let totlen := be32 (data.drop 8) + MRT_HEADER_LEN
    if dataLen < totlen then (0, none)
    else (totlen, some (data.take totlen))

/-- The `bufio.Scanner` driver over `SplitMrt`, as driven by a reader whose
end of input is discovered by an empty read: while tokens come, consume
them; when the splitter asks for more and no bytes remain to be read, make
the final at-EOF calls. `fuel` bounds the number of tokens produced. -/
def scanMrt (fuel : Nat) (data : List Nat) : List (List Nat) :=
  match fuel with
  | 0 => []
  | fuel + 1 =>
    match SplitMrt data false with
    | (adv, some tok) => tok :: scanMrt fuel (data.drop adv)
    | (_, none) =>
      match SplitMrt data true with
      | (_, none) => []
      | (_, some tok) => [tok]

/-- A byte buffer is a well-formed MRT record when it holds the 12-byte
fixed header and exactly the payload the header's length field declares. -/
def WfMrtRecord (r : List Nat) : Prop :=
  MRT_HEADER_LEN ≤ r.length ∧ r.length = MRT_HEADER_LEN + be32 (r.drop 8)

instance (r : List Nat) : Decidable (WfMrtRecord r) := by
  unfold WfMrtRecord; infer_instance

/-- The outcome of `mrtHhdrBuf.Parse`: which sub-decoder the outer MRT
header decoder hands its payload to, or an error. -/
inductive MrtNext where
  | bgp4mp (payload : List Nat) (isAS4 : Bool)
  | ribIndex (payload : List Nat)
  | ribEntry (payload : List Nat) (subtype : Nat)
  | err
  deriving DecidableEq, Repr

/-- `mrtHhdrBuf.Parse` (`src/protocol/mrt/mrt.go`): reads the 12-byte MRT
header and dispatches on type and subtype. The constants of the source:
BGP4MP=16, BGP4MP_ET=17, MESSAGE=1, MESSAGE_AS4=4, MESSAGE_LOCAL=7,
MESSAGE_AS4_LOCAL=7, TABLE_DUMP=12, TABLE_DUMP_V2=13, PEER_INDEX_TABLE=1. -/
def mrtHdrParse (buf : List Nat) : MrtNext :=
  if buf.length < MRT_HEADER_LEN then .err
  else
    let u16type := be16 (buf.drop 4)
    let u16subtype := be16 (buf.drop 6)
    let len := be32 (buf.drop 8)
    if (buf.drop MRT_HEADER_LEN).length < len then .err
    else if u16type = 16 ∨ u16type = 17 then
      if u16subtype = 4 ∨ u16subtype = 7 then .bgp4mp (buf.drop MRT_HEADER_LEN) true
      else if u16subtype = 1 ∨ u16subtype = 7 then .bgp4mp (buf.drop MRT_HEADER_LEN) false
      else .err
    else if u16type = 12 then .err
    else if u16type = 13 then
      if u16subtype = 1 then .ribIndex (buf.drop MRT_HEADER_LEN)
      else .ribEntry (buf.drop MRT_HEADER_LEN) u16subtype
    else .err

end Protoparse.Mrt

namespace Protoparse.Bgp
open Protoparse

/-- `pbcom.IPAddressWrapper`: exactly one of the two families set. -/
structure IPWrap where
  Ipv4 : Option (List Nat) := none
  Ipv6 : Option (List Nat) := none
  deriving DecidableEq, Repr

/-- `pbcom.PrefixWrapper`: an address wrapper plus a mask (the Go field
`Prefix` is named `Addr` here). -/
structure PrefixWrap where
  Addr : IPWrap := {}
  Mask : Nat := 0
  deriving DecidableEq, Repr

/-- `bgp.readPrefix` (`src/protocol/bgp/bgp.go`): reads
`{bitlen, ceil(bitlen/8) address bytes}` entries while more than one byte
remains; an entry whose byte length exceeds the remaining buffer or is
below 1 stops the loop, returning what was decoded; the last address byte
has its bits past `bitlen` cleared; addresses are zero-extended to 4 or 16
bytes. `bitlen + 7` is computed in `uint8`, hence the `% 256`. -/
def readPrefixLoop (v6 : Bool) : Nat → List Nat → List PrefixWrap
  | 0, _ => []
  | fuel + 1, buf =>
    if 1 < buf.length then
      let bitlen := buf.getD 0 0
      let rest := buf.drop 1
      let bytelen := ((bitlen + 7) % 256) / 8
      if rest.length < bytelen ∨ bytelen < 1 then []
      else
        let pbuf0 := rest.take bytelen
        let pbuf := if bitlen % 8 ≠ 0 then
            pbuf0.set (bytelen - 1) ((pbuf0.getD (bytelen - 1) 0) &&& ((65280 >>> (bitlen % 8)) % 256))
          else pbuf0
        let addr : IPWrap := if v6 then { Ipv6 := some ((pbuf ++ List.replicate 16 0).take 16) }
          else { Ipv4 := some ((pbuf ++ List.replicate 4 0).take 4) }
        { Addr := addr, Mask := bitlen } :: readPrefixLoop v6 fuel (rest.drop bytelen)
    else []

/-- `bgp.readPrefix` proper: the loop above with enough fuel — every
iteration consumes at least two bytes, so `buf.length` iterations can
never be cut short. -/
def readPrefix (buf : List Nat) (v6 : Bool) : List PrefixWrap :=
  readPrefixLoop v6 buf.length buf

/-- `pbbgp.BGPUpdate_ASPathSegment`: one AS-path segment; Go appends the
segment's ASNs into `AsSet` or `AsSeq` according to the segment kind. -/
structure ASPathSegment where
  AsSet : List Nat := []
  AsSeq : List Nat := []
  deriving DecidableEq, Repr

/-- `pbbgp.BGPUpdate_Community`: a plain or extended community blob. -/
structure Community where
  CommunityBytes : Option (List Nat) := none
  ExtendedCommunity : Option (List Nat) := none
  deriving DecidableEq, Repr

/-- `pbbgp.BGPUpdate_Aggregator`. -/
structure Aggregator where
  As : Nat := 0
  Ip : IPWrap := {}
  deriving DecidableEq, Repr

/-- `pbbgp.BGPUpdate_Attributes`: the decoded attribute aggregate. -/
structure BGPAttrs where
  OptionalBit : Bool := false
  TransitiveBit : Bool := false
  PartialBit : Bool := false
  ExtendedBit : Bool := false
  Types : List Nat := []
  Origin : Nat := 0
  AsPath : List ASPathSegment := []
  NextHop : Option IPWrap := none
  MultiExit : Nat := 0
  LocalPref : Nat := 0
  AtomicAggregate : Bool := false
  Agg : Option Aggregator := none
  Communities : List Community := []
  deriving DecidableEq, Repr

/-- Result of one `readseg`/`readseg4` segment loop of `readAttrs`: the
accumulated segments, the advanced buffer and the accumulated skip count,
or `none` for the loop's error returns. -/
def readSegLoop (as4 : Bool) (attrlen : Nat) : Nat → List Nat → Nat →
    List ASPathSegment → Option (List ASPathSegment × List Nat × Nat)
  | 0, _, _, _ => none
  | fuel + 1, buf, totskip, segs =>
    if buf.length < 2 then none
    else
      let ptype := buf.getD 0 0
      if ptype ≠ 1 ∧ ptype ≠ 2 then none
      else
        let setp := ptype = 1
        let plen := buf.getD 1 0
        let buf1 := buf.drop 2
        let width := if as4 then 4 else 2
        if buf1.length < plen * width then none
        else
          let asns := (List.range plen).map (fun k =>
            if as4 then be32 (buf1.drop (4 * k)) else be16 (buf1.drop (2 * k)))
          let seg : ASPathSegment := if setp then { AsSet := asns } else { AsSeq := asns }
          let buf2 := buf1.drop (plen * width)
          let totskip2 := totskip + 2 + plen * width
          let segs2 := segs ++ [seg]
          if totskip2 < attrlen then readSegLoop as4 attrlen fuel buf2 totskip2 segs2
          else some (segs2, buf2, totskip2)

/-- The `readseg`/`readseg4` loop proper, with enough fuel: every
iteration raises `totskip` by at least two and the loop only continues
while `totskip < attrlen`, so `attrlen + 1` iterations can never be cut
short. -/
def readSeg (as4 : Bool) (attrlen : Nat) (buf : List Nat) :
    Option (List ASPathSegment × List Nat × Nat) :=
  readSegLoop as4 attrlen (attrlen + 1) buf 0 []

/-- The inner SNPA-skipping loop of the MP_REACH_NLRI case: skips `count`
`{len, len bytes}` groups, returning the advanced buffer and bytes skipped,
or `none` for its error returns. -/
def snpaSkip (count : Nat) (buf : List Nat) (skipped : Nat) : Option (List Nat × Nat) :=
  match count with
  | 0 => some (buf, skipped)
  | c + 1 =>
    if buf.length < 1 then none
    else
      let snpal := buf.getD 0 0
      let buf1 := buf.drop 1
      if buf1.length < snpal then none
      else snpaSkip c (buf1.drop snpal) (skipped + 1 + snpal)

/-- Outcome of one arm of the attribute-type switch in `readAttrs`: the
updated state `(attrs, buf, totskip, mpadv, mpwdr)`, a decode error, or a
Go run-time panic (out-of-range slice index). -/
inductive SwitchOut where
  | ok (attrs : BGPAttrs) (buf : List Nat) (totskip : Nat)
      (mpadv mpwdr : List PrefixWrap)
  | err
  | panic
  deriving DecidableEq, Repr

/-- The attribute-type switch of `bgp.readAttrs` (first variant,
`src/protocol/bgp/bgp.go`), entered with `buf` positioned after the
attribute header and `attrlen ≥ 1` bytes declared. -/
def attrSwitch (as4 v6 : Bool) (typebyte attrlen : Nat) (buf : List Nat)
    (attrs : BGPAttrs) (mpadv mpwdr : List PrefixWrap) : SwitchOut :=
  if typebyte = 1 then
    let attrs := { attrs with Types := attrs.Types ++ [1] }
    if attrlen ≠ 1 then .err
    else .ok { attrs with Origin := buf.getD 0 0 } buf 0 mpadv mpwdr
  else if typebyte = 2 then
    let attrs := { attrs with Types := attrs.Types ++ [2] }
    match readSeg as4 attrlen buf with
    | none => .err
    | some (segs, buf', totskip) =>
      .ok { attrs with AsPath := attrs.AsPath ++ segs } buf' totskip mpadv mpwdr
  else if typebyte = 3 then
    let attrs := { attrs with Types := attrs.Types ++ [3] }
    if v6 = true ∧ attrlen = 16 then
      .ok { attrs with NextHop := some { Ipv6 := some (buf.take 16) } } buf 0 mpadv mpwdr
    else if v6 = false ∧ attrlen = 4 then
      .ok { attrs with NextHop := some { Ipv4 := some (buf.take 4) } } buf 0 mpadv mpwdr
    else .err
  else if typebyte = 4 then
    let attrs := { attrs with Types := attrs.Types ++ [4] }
    if attrlen ≠ 4 then .err
    else .ok { attrs with MultiExit := be32 buf } buf 0 mpadv mpwdr
  else if typebyte = 5 then
    let attrs := { attrs with Types := attrs.Types ++ [5] }
    if attrlen ≠ 4 then .err
    else .ok { attrs with LocalPref := be32 buf } buf 0 mpadv mpwdr
  else if typebyte = 6 then
    let attrs := { attrs with Types := attrs.Types ++ [6] }
    .ok { attrs with AtomicAggregate := true } buf 0 mpadv mpwdr
  else if typebyte = 7 then
    let attrs := { attrs with Types := attrs.Types ++ [7] }
    if attrlen = 6 then
      .ok { attrs with Agg := some { As := be16 buf, Ip := { Ipv4 := some ((buf.drop 2).take 4) } } }
        buf 0 mpadv mpwdr
    else if attrlen = 8 then
      .ok { attrs with Agg := some { As := be32 buf, Ip := { Ipv4 := some ((buf.drop 4).take 4) } } }
        buf 0 mpadv mpwdr
    else if attrlen = 18 then
      .ok { attrs with Agg := some { As := be16 buf, Ip := { Ipv6 := some ((buf.drop 2).take 16) } } }
        buf 0 mpadv mpwdr
    else if attrlen = 20 then
      .ok { attrs with Agg := some { As := be32 buf, Ip := { Ipv6 := some ((buf.drop 4).take 16) } } }
        buf 0 mpadv mpwdr
    else .err
  else if typebyte = 8 then
    let attrs := { attrs with Types := attrs.Types ++ [8] }
    if buf.length < attrlen then .panic
    else .ok { attrs with Communities := attrs.Communities ++ [{ CommunityBytes := some (buf.take attrlen) }] }
      buf 0 mpadv mpwdr
  else if typebyte = 14 then
    let attrs := { attrs with Types := attrs.Types ++ [14] }
    if buf.length < 4 then .err
    else
      let nhl := buf.getD 3 0
      let buf1 := buf.drop 4
      if 0 < nhl ∧ nhl < buf1.length then
        let attrs := { attrs with Types := attrs.Types ++ [3] }
        let nh? : Option IPWrap :=
          if v6 = true ∧ nhl = 16 then some { Ipv6 := some (buf1.take 16) }
          else if v6 = true ∧ nhl = 32 then some { Ipv6 := some (buf1.take 16) }
          else if v6 = false ∧ nhl = 4 then some { Ipv4 := some (buf1.take 4) }
          else none
        match nh? with
        | none => .err
        | some nh =>
          let attrs := { attrs with NextHop := some nh }
          let buf2 := buf1.drop nhl
          if buf2.length < 1 then .err
          else
            let snpanum := buf2.getD 0 0
            let buf3 := buf2.drop 1
            match snpaSkip snpanum buf3 0 with
            | none => .err
            | some (buf4, innerskip) =>
              .ok attrs buf4 (4 + nhl + 1 + innerskip) (readPrefix buf4 v6) mpwdr
      else .err
  else if typebyte = 15 then
    let attrs := { attrs with Types := attrs.Types ++ [15] }
    if buf.length < 3 then .err
    else .ok attrs (buf.drop 3) 3 mpadv (readPrefix (buf.drop 3) v6)
  else if typebyte = 16 then
    let attrs := { attrs with Types := attrs.Types ++ [16] }
    if buf.length < attrlen then .panic
    else .ok { attrs with Communities := attrs.Communities ++ [{ ExtendedCommunity := some (buf.take attrlen) }] }
      buf 0 mpadv mpwdr
  else if typebyte = 17 then
    let attrs := { attrs with Types := attrs.Types ++ [17] }
    match readSeg true attrlen buf with
    | none => .err
    | some (segs, buf', totskip) =>
      .ok { attrs with AsPath := attrs.AsPath ++ segs } buf' totskip mpadv mpwdr
  else if typebyte = 18 then
    .ok { attrs with Types := attrs.Types ++ [18] } buf 0 mpadv mpwdr
  else if typebyte = 25 then
    let attrs := { attrs with Types := attrs.Types ++ [25] }
    if buf.length < 20 then .panic
    else .ok attrs (buf.drop 20) 20 mpadv mpwdr
  else if typebyte = 9 ∨ typebyte = 10 ∨ typebyte = 22 ∨ typebyte = 23 ∨ typebyte = 24 ∨
      typebyte = 26 ∨ typebyte = 27 ∨ typebyte = 29 ∨ typebyte = 32 ∨ typebyte = 33 ∨
      typebyte = 128 then
    .ok { attrs with Types := attrs.Types ++ [typebyte] } buf 0 mpadv mpwdr
  else .err

/-- Result of `bgp.readAttrs`: the decoded attributes plus the MP_REACH /
MP_UNREACH side-returned prefix lists, a decode error, a Go run-time
panic, or fuel exhaustion of the model (unreachable for the fuel
`readAttrs` supplies, since every loop iteration consumes bytes). -/
inductive AttrsResult where
  | ok (attrs : BGPAttrs) (mpadv mpwdr : List PrefixWrap)
  | err
  | panic
  | outOfFuel
  deriving DecidableEq, Repr

/-- The `readattr` goto-loop of `bgp.readAttrs` (first variant,
`src/protocol/bgp/bgp.go`): per iteration, read the attribute header
(1-byte flags, 1-byte type, 1- or 2-byte length by the extended-length
bit), bail out returning the attributes decoded so far when the declared
length overruns the input, run the type switch, then skip
`attrlen - totskip` bytes — a negative skip or an overlong skip being a
run-time panic, as Go's slice expression panics on negative bounds. -/
def readAttrsLoop (as4 v6 : Bool) : Nat → List Nat → BGPAttrs → List PrefixWrap →
    List PrefixWrap → AttrsResult
  | 0, _, _, _, _ => .outOfFuel
  | fuel + 1, buf, attrs0, mpadv, mpwdr =>
    if buf.length < 2 then .ok attrs0 mpadv mpwdr
    else
      let flagbyte := buf.getD 0 0
      let attrs := { attrs0 with
        OptionalBit := flagbyte &&& 128 ≠ 0
        TransitiveBit := flagbyte &&& 64 ≠ 0
        PartialBit := flagbyte &&& 32 ≠ 0
        ExtendedBit := flagbyte &&& 16 ≠ 0 }
      let typebyte := buf.getD 1 0
      let hdr : Option (Nat × Nat) :=  -- (attrlen, header size) or error/early return
        if flagbyte &&& 16 ≠ 0 then some (be16 (buf.drop 2), 4) else some (buf.getD 2 0, 3)
      match hdr with
      | none => .err
      | some (attrlen, hdrlen) =>
        if hdrlen = 4 ∧ buf.length < 4 then .err
        else if hdrlen = 3 ∧ buf.length < 3 then .err
        else if ¬ ((attrlen + hdrlen) % 65536 ≤ buf.length) then .ok attrs mpadv mpwdr
        else
          let buf1 := buf.drop hdrlen
          if attrlen = 0 then .ok attrs mpadv mpwdr
          else
            match attrSwitch as4 v6 typebyte attrlen buf1 attrs mpadv mpwdr with
            | .err => .err
            | .panic => .panic
            | .ok attrs2 buf2 totskip mpadv2 mpwdr2 =>
              if attrlen < totskip then .panic
              else if buf2.length < attrlen - totskip then .panic
              else readAttrsLoop as4 v6 fuel (buf2.drop (attrlen - totskip)) attrs2 mpadv2 mpwdr2

/-- `bgp.readAttrs` (first variant, `src/protocol/bgp/bgp.go`): an input
shorter than two bytes is an immediate error; otherwise run the attribute
loop (the fuel bounds the iteration count; each iteration consumes at
least one byte, so `buf.length + 1` never runs out). -/
def readAttrs (buf : List Nat) (as4 v6 : Bool) : AttrsResult :=
  if buf.length < 2 then .err
  else readAttrsLoop as4 v6 (buf.length + 1) buf {} [] []

/-- `pbbgp.BGPUpdate`: the decoded update; `none` lists mirror Go `nil`
pointers. -/
structure BGPUpdate where
  WithdrawnRoutes : Option (List PrefixWrap) := none
  Attrs : Option BGPAttrs := none
  AdvertizedRoutes : Option (List PrefixWrap) := none
  deriving DecidableEq, Repr

/-- Result of `bgpUpdateBuf.Parse`. -/
inductive UpdResult where
  | ok (u : BGPUpdate)
  | err
  | panic
  | outOfFuel
  deriving DecidableEq, Repr

/-- `bgpUpdateBuf.Parse` (first variant, `src/protocol/bgp/bgp.go`):
withdrawn-length and block, attribute-length and block, then the NLRI
block of length `total - 4 - attrlen - wlen`, merging the MP_REACH- and
MP_UNREACH-derived prefixes with the block-derived ones. Unchecked Go
reads (`b.buf[:2]` and `b.buf[:wlen]` after the 2-byte advance) are
modelled as panics. -/
def bgpUpdateParse (buf0 : List Nat) (v6 as4 : Bool) : UpdResult :=
  if buf0.length < 2 then .err
  else
    let uplen := buf0.length
    let wlen := be16 buf0
    let step : Option (Option (List Nat × Option (List PrefixWrap) × Nat)) :=
      if wlen = 0 then some (some (buf0.drop 2, none, 0))
      else if uplen < wlen then none  -- decode error
      else
        let buf1a := buf0.drop 2
        if buf1a.length < wlen then some none  -- panic: b.buf[:wlen]
        else some (some (buf1a.drop wlen, some (readPrefix (buf1a.take wlen) v6), wlen))
    match step with
    | none => .err
    | some none => .panic
    | some (some (buf1, wdr0, wlenUsed)) =>
      if buf1.length < 2 then .panic  -- unchecked BigEndian.Uint16(b.buf[:2])
      else
        let attrlen := be16 buf1
        let buf2 := buf1.drop 2
        if attrlen = 0 then .ok { WithdrawnRoutes := wdr0 }
        else if buf2.length < attrlen then .err
        else
          match readAttrs (buf2.take attrlen) as4 v6 with
          | .err => .err
          | .panic => .panic
          | .outOfFuel => .outOfFuel
          | .ok attrs mpadv mpwdr =>
            let buf3 := buf2.drop attrlen
            let nlrilen : Int := (uplen : Int) - 4 - (attrlen : Int) - (wlenUsed : Int)
            let adv0 : Option (List PrefixWrap) := if mpadv ≠ [] then some mpadv else none
            let wdr1 : Option (List PrefixWrap) :=
              if mpwdr ≠ [] then
                match wdr0 with
                | none => some mpwdr
                | some l => some (l ++ mpwdr)
              else wdr0
            if nlrilen ≤ 0 then
              .ok { WithdrawnRoutes := wdr1, Attrs := some attrs, AdvertizedRoutes := adv0 }
            else if buf3.length < nlrilen.toNat then .panic  -- b.buf[:nlrilen]
            else
              let nlrislice := readPrefix (buf3.take nlrilen.toNat) v6
              let adv : Option (List PrefixWrap) :=
                match adv0 with
                | none => some nlrislice
                | some l => some (l ++ nlrislice)
              .ok { WithdrawnRoutes := wdr1, Attrs := some attrs, AdvertizedRoutes := adv }

/-- The withdrawn-routes length field of an update payload. -/
def updWlen (payload : List Nat) : Nat := be16 payload

/-- The update payload after the withdrawn-routes length field and block. -/
def updTail (payload : List Nat) : List Nat :=
  if updWlen payload = 0 then payload.drop 2
  else (payload.drop 2).drop (updWlen payload)

/-- The prefixes of the withdrawn-routes block of an update payload. -/
def updWdrBlock (payload : List Nat) (v6 : Bool) : List PrefixWrap :=
  if updWlen payload = 0 then []
  else readPrefix ((payload.drop 2).take (updWlen payload)) v6

/-- The attribute-block length field of an update payload. -/
def updAttrlen (payload : List Nat) : Nat := be16 (updTail payload)

/-- The NLRI block length `total - 4 - attr_length - withdrawn_length` of
an update payload (a Go `int`, possibly negative). -/
def updNlrilen (payload : List Nat) : Int :=
  (payload.length : Int) - 4 - (updAttrlen payload : Int) - (updWlen payload : Int)

/-- The prefixes of the NLRI block of an update payload (empty when the
computed NLRI length is not positive). -/
def updNlriBlock (payload : List Nat) (v6 : Bool) : List PrefixWrap :=
  if 0 < updNlrilen payload then
    readPrefix ((((updTail payload).drop 2).drop (updAttrlen payload)).take (updNlrilen payload).toNat) v6
  else []

end Protoparse.Bgp

namespace Protoparse.Mbs
open Protoparse Protoparse.Bgp

/-- `mrt.getASPathFromAttrs` (`src/protocol/mrt/mbs.go`): per segment,
append the sequence ASNs when present, otherwise the set ASNs. -/
def getASPathFromAttrs (attrs : BGPAttrs) : List Nat :=
  (attrs.AsPath.map (fun seg =>
    if seg.AsSeq ≠ [] then seg.AsSeq
    else if seg.AsSet ≠ [] then seg.AsSet
    else [])).flatten

/-- `mrt.MrtBufferStack`, reduced to what `GetASPath` consults: an update
capture holds an optional decoded update (nil update or nil attributes is
the function's error path); a RIB capture holds an optional decoded header
with per-route-entry optional attributes. -/
inductive MrtBufferStack where
  | updateStack (upd : Option BGPUpdate)
  | ribStack (hdr : Option (List (Option BGPAttrs)))
  deriving DecidableEq, Repr

/-- `mrt.GetASPath` (`src/protocol/mrt/mbs.go`): the collapsed AS path of
the stack, or `none` for the function's error returns. For RIB stacks the
per-entry paths accumulate in entry order. -/
def GetASPath : MrtBufferStack → Option (List Nat)
  | .ribStack none => none
  | .ribStack (some entries) =>
    some ((entries.map (fun e => match e with
      | none => []
      | some a => getASPathFromAttrs a)).flatten)
  | .updateStack none => none
  | .updateStack (some u) =>
    match u.Attrs with
    | none => none
    | some a => some (getASPathFromAttrs a)

end Protoparse.Mbs

namespace Protoparse.Filter
open Protoparse Protoparse.Bgp Protoparse.Mbs

/-- `filter.ASFilter.matchesOne`: membership of `comp` in the configured
ASN list. -/
def matchesOne (asList : List Nat) (comp : Nat) : Bool :=
  asList.any (fun asnum => asnum = comp)

/-- `filter.ASFilter.FilterBySource` (`src/filter/mrtFilter.go`): true iff
the collapsed AS path is non-empty and its last ASN is configured. -/
def FilterBySource (asList : List Nat) (mbs : MrtBufferStack) : Bool :=
  match GetASPath mbs with
  | none => false
  | some path =>
    if path.length < 1 then false
    else matchesOne asList (path.getD (path.length - 1) 0)

/-- `filter.ASFilter.FilterByDest`: true iff the collapsed AS path is
non-empty and its first ASN is configured. -/
def FilterByDest (asList : List Nat) (mbs : MrtBufferStack) : Bool :=
  match GetASPath mbs with
  | none => false
  | some path =>
    if path.length < 1 then false
    else matchesOne asList (path.getD 0 0)

/-- `filter.ASFilter.FilterByMidPath`: true iff the collapsed AS path has
at least three ASNs and one of `path[1 : len-1]` is configured. -/
def FilterByMidPath (asList : List Nat) (mbs : MrtBufferStack) : Bool :=
  match GetASPath mbs with
  | none => false
  | some path =>
    if path.length < 3 then false
    else ((path.drop 1).take (path.length - 2)).any (matchesOne asList)

/-- `filter.ASFilter.FilterByAnywhere`: true iff some ASN of the collapsed
AS path is configured. -/
def FilterByAnywhere (asList : List Nat) (mbs : MrtBufferStack) : Bool :=
  match GetASPath mbs with
  | none => false
  | some path =>
    if path.length < 1 then false
    else path.any (matchesOne asList)

end Protoparse.Filter

namespace Protoparse.Pbfile
open Protoparse

/-- The magic trailer constant of `util/pbfile.go`. -/
def magicbytes : Nat := 118864

/-- The footer of a footed record file as `MakeFooter` builds it; the
`Sections` slice is always nil there and is rendered as JSON `null`. -/
structure GoFooter where
  Numentries : Nat
  Filever : Nat
  Filedir : List Char
  Filename : List Char
  deriving DecidableEq, Repr

/-- Go's `json.Marshal` of a `Footer` built by `MakeFooter`: the fields in
struct order, numbers in decimal, the two names quoted verbatim (the paths
used contain no characters needing JSON escaping), nil `Sections` as
`null`. -/
def jsonChars (f : GoFooter) : List Char :=
  [Char.ofNat 123] ++ "\"Numentries\":".toList ++ Nat.toDigits 10 f.Numentries
    ++ ",\"Filever\":".toList ++ Nat.toDigits 10 f.Filever
    ++ ",\"Filedir\":\"".toList ++ f.Filedir
    ++ "\",\"Filename\":\"".toList ++ f.Filename
    ++ "\",\"Sections\":null".toList ++ [Char.ofNat 125]

/-- `util.MarshalBytes`: the JSON footer bytes, then the big-endian length
of the JSON string (not counting the 8 trailer bytes), then the magic. -/
def MarshalBytes (f : GoFooter) : List Nat :=
  let jb := (jsonChars f).map Char.toNat
  jb ++ be32enc jb.length ++ be32enc magicbytes

/-- Go's `filepath.Base` for the slash-separated paths used here (no
trailing slash). -/
def pathBase (p : List Char) : List Char :=
  (p.splitOn '/').getLastD []

/-- Go's `filepath.Dir` for the clean absolute paths used here. -/
def pathDir (p : List Char) : List Char :=
  let parts := p.splitOn '/'
  if parts.length ≤ 1 then ['.']
  else
    let d := (List.intersperse ['/'] parts.dropLast).flatten
    if d = [] then ['/'] else d

/-- `util.RecordFile`, reduced to its observable write-side state: the
bytes on disk once the buffered writer is flushed, the entry counter and
the recorded size. -/
structure RecordFile where
  file : List Nat := []
  entries : Nat := 0
  sz : Nat := 0
  deriving DecidableEq, Repr

/-- `RecordFile.Write` (`src/util/pbfile.go`): prepends the big-endian
32-bit record length, then the record bytes; it adjusts `sz` but leaves
the entry counter untouched. -/
def RecordFileWrite (p : RecordFile) (b : List Nat) : RecordFile :=
  { p with file := p.file ++ be32enc b.length ++ b, sz := p.sz + b.length }

/-- `FootedRecordFile.MakeFooter`: entry count from the file state,
version `RecordFile_FlatFooted = 1`, directory and base of the file name. -/
def MakeFooter (fname : List Char) (entries : Nat) : GoFooter :=
  { Numentries := entries, Filever := 1, Filedir := pathDir fname, Filename := pathBase fname }

/-- `FootedRecordFile.Close`: writes `MarshalBytes(MakeFooter())` through
`RecordFile.Write` (hence with an extra length prefix) and flushes.
Returns the final file state and the footer that was recorded. -/
def FootedClose (p : RecordFile) (fname : List Char) : RecordFile × GoFooter :=
  let foot := MakeFooter fname p.entries
  (RecordFileWrite p (MarshalBytes foot), foot)

end Protoparse.Pbfile

/-! ## Support lemmas -/

namespace Protoparse

theorem be32_append (l t : List Nat) (h : 4 ≤ l.length) : be32 (l ++ t) = be32 l := by
  unfold be32
  rw [List.getD_append _ _ _ _ (by omega), List.getD_append _ _ _ _ (by omega),
    List.getD_append _ _ _ _ (by omega), List.getD_append _ _ _ _ (by omega)]

end Protoparse

namespace Protoparse.Bgp
open Protoparse

theorem readPrefixLoop_mask_pos (v6 : Bool) :
    ∀ (fuel : Nat) (buf : List Nat) (p : PrefixWrap),
      p ∈ readPrefixLoop v6 fuel buf → 0 < p.Mask := by
  intro fuel
  induction fuel with
  | zero => intro buf p hp; simp [readPrefixLoop] at hp
  | succ n ih =>
    intro buf p hp
    simp only [readPrefixLoop] at hp
    split at hp
    · split at hp
      · simp at hp
      · rename_i hguard
        rcases List.mem_cons.mp hp with h | h
        · rcases Nat.eq_zero_or_pos (buf.getD 0 0) with h0 | h0
          · rw [h0] at hguard; simp at hguard
          · rw [h]; exact h0
        · exact ih _ p h
    · simp at hp

end Protoparse.Bgp

namespace Protoparse.Util
open Protoparse

theorem IpToRadixkey_zero (b : List Nat) : IpToRadixkey b 0 = some [] := by
  unfold IpToRadixkey strTake
  split_ifs <;> simp_all

end Protoparse.Util

/-! ## Claim theorems -/

namespace Protoparse.Claims
open Protoparse Protoparse.Util Protoparse.Mrt Protoparse.Bgp Protoparse.Mbs
open Protoparse.Filter Protoparse.Pbfile

/-- C10: the wire prefix reader `readPrefix` never emits a prefix with
mask 0 — its loop only runs while more than one byte remains, and an entry
whose computed byte length is below 1 aborts the loop — so a zero-length
(default-route) NLRI entry and all bytes after it are dropped from the
result rather than decoded as `0.0.0.0/0` or `::/0`. -/
theorem readPrefix_no_zero_mask :
    (∀ (buf : List Nat) (v6 : Bool) (p : PrefixWrap), p ∈ readPrefix buf v6 → 0 < p.Mask)
    ∧ (∀ (rest : List Nat) (v6 : Bool), readPrefix (0 :: rest) v6 = []) := by
  constructor
  · intro buf v6 p hp
    exact readPrefixLoop_mask_pos v6 buf.length buf p hp
  · intro rest v6
    unfold readPrefix
    simp only [readPrefixLoop, List.length_cons]
    split
    · simp
    · rfl

/-- C10 witness: on the concrete NLRI block `[8, 10]` the decoded prefix
`10.0.0.0/8` has a positive mask, and the block `[0, 1, 2, 3]` — a
zero-length entry followed by bytes — decodes to nothing. -/
theorem readPrefix_no_zero_mask_witness :
    0 < (⟨⟨some [10, 0, 0, 0], none⟩, 8⟩ : PrefixWrap).Mask ∧
      readPrefix [0, 1, 2, 3] false = [] :=
  ⟨readPrefix_no_zero_mask.1 [8, 10] false ⟨⟨some [10, 0, 0, 0], none⟩, 8⟩ (by decide),
    readPrefix_no_zero_mask.2 [1, 2, 3] false⟩

/-- C5: on an attribute block whose inner decoder consumes more bytes than
the attribute's declared length (declared length 1, one AS2 path segment
consuming 4 bytes), `readAttrs` hits Go's `buf[attrlen-totskip:]` with a
negative index — a run-time panic, not a returned decode error. -/
theorem readAttrs_negative_skip_panics :
    readAttrs [0, 2, 1, 2, 1, 0, 5] false false = .panic ∧
      readAttrs [0, 2, 1, 2, 1, 0, 5] false false ≠ .err := by decide

/-- C9: once a zero-mask prefix (whose radix key is the empty string) is
inserted, the longest-prefix-match membership test answers true for every
query whose key construction succeeds. -/
theorem prefixTree_empty_key_matches_all :
    ∀ (t : PrefixTree) (ip0 ip : List Nat) (mask : Nat) (t' : PrefixTree),
      t.Add ip0 0 = some t' → (IpToRadixkey ip mask).isSome →
      t'.ContainsIpMask ip mask = some true := by
  intro t ip0 ip mask t' hAdd hSome
  obtain ⟨k, hk⟩ := Option.isSome_iff_exists.mp hSome
  have ht' : t' = ⟨[] :: t.keys⟩ := by
    rw [PrefixTree.Add, IpToRadixkey_zero] at hAdd
    simpa using hAdd.symm
  subst ht'
  rw [PrefixTree.ContainsIpMask, hk]
  simp [List.isPrefixOf]

/-- C9 witness: inserting `(0.0.0.0, /0)` into the fresh tree and querying
`(1.2.3.4, /32)` answers true. -/
theorem prefixTree_empty_key_matches_all_witness :
    PrefixTree.ContainsIpMask ⟨[[]]⟩ [1, 2, 3, 4] 32 = some true :=
  prefixTree_empty_key_matches_all NewPrefixTree [0, 0, 0, 0] [1, 2, 3, 4] 32 ⟨[[]]⟩
    (by decide) (by decide)

/-- C1 counterexample: an MRT record of type BGP4MP (16) and subtype 7 is
dispatched to the BGP4MP sub-decoder with `is_as4 = true` (the source's
`MESSAGE_AS4_LOCAL` constant equals 7 and is matched first), not with
`is_as4 = false` as the claim states for subtype 7 (MESSAGE_LOCAL). -/
theorem mrtHdrParse_subtype7_counterexample :
    mrtHdrParse [0, 0, 0, 0, 0, 16, 0, 7, 0, 0, 0, 0] = .bgp4mp [] true ∧
      mrtHdrParse [0, 0, 0, 0, 0, 16, 0, 7, 0, 0, 0, 0] ≠ .bgp4mp [] false := by decide

/-- C1 amended: for a well-formed MRT record of type 16 or 17, subtype 4
or subtype 7 dispatches to the BGP4MP sub-decoder with `is_as4 = true`,
and subtype 1 dispatches with `is_as4 = false`. -/
theorem mrtHdrParse_dispatch :
    ∀ (buf : List Nat), 12 ≤ buf.length → be32 (buf.drop 8) ≤ buf.length - 12 →
      (be16 (buf.drop 4) = 16 ∨ be16 (buf.drop 4) = 17) →
      ((be16 (buf.drop 6) = 4 ∨ be16 (buf.drop 6) = 7 →
          mrtHdrParse buf = .bgp4mp (buf.drop 12) true)
        ∧ (be16 (buf.drop 6) = 1 → mrtHdrParse buf = .bgp4mp (buf.drop 12) false)) := by
  intro buf h12 hlen htype
  have hA : ¬ (buf.length < 12) := by omega
  have hB : ¬ ((buf.drop MRT_HEADER_LEN).length < be32 (buf.drop 8)) := by
    simp only [List.length_drop, MRT_HEADER_LEN]; omega
  constructor
  · intro hsub
    simp only [mrtHdrParse, MRT_HEADER_LEN] at hB ⊢
    rw [if_neg hA, if_neg hB, if_pos htype, if_pos hsub]
  · intro hsub
    have hno : ¬ (be16 (buf.drop 6) = 4 ∨ be16 (buf.drop 6) = 7) := by omega
    simp only [mrtHdrParse, MRT_HEADER_LEN] at hB ⊢
    rw [if_neg hA, if_neg hB, if_pos htype, if_neg hno, if_pos (Or.inl hsub)]

/-- C1 witness: a type-17 subtype-4 record dispatches with `is_as4 = true`
and a type-16 subtype-1 record with two payload bytes dispatches with
`is_as4 = false`. -/
theorem mrtHdrParse_dispatch_witness :
    mrtHdrParse [0, 0, 0, 0, 0, 17, 0, 4, 0, 0, 0, 0] = .bgp4mp [] true ∧
      mrtHdrParse [0, 0, 0, 0, 0, 16, 0, 1, 0, 0, 0, 2, 5, 6] = .bgp4mp [5, 6] false :=
  ⟨(mrtHdrParse_dispatch [0, 0, 0, 0, 0, 17, 0, 4, 0, 0, 0, 0] (by decide) (by decide)
      (by decide)).1 (by decide),
    (mrtHdrParse_dispatch [0, 0, 0, 0, 0, 16, 0, 1, 0, 0, 0, 2, 5, 6] (by decide) (by decide)
      (by decide)).2 (by decide)⟩

end Protoparse.Claims

namespace Protoparse.Claims
open Protoparse Protoparse.Mrt

theorem splitMrt_wf_head (r rest : List Nat) (hwf : WfMrtRecord r) :
    SplitMrt (r ++ rest) false = (r.length, some r) := by
  obtain ⟨h12, hlen⟩ := hwf
  simp only [MRT_HEADER_LEN] at h12 hlen
  have hdrop : (r ++ rest).drop 8 = r.drop 8 ++ rest :=
    List.drop_append_of_le_length (by omega)
  have hbe : be32 ((r ++ rest).drop 8) = be32 (r.drop 8) := by
    rw [hdrop]; exact be32_append _ _ (by simp only [List.length_drop]; omega)
  have hlen' : (r ++ rest).length = r.length + rest.length := List.length_append r rest
  simp only [SplitMrt, MRT_HEADER_LEN, Bool.false_eq_true, false_and, if_false,
    if_neg (by simp : ¬ (False ∧ (r ++ rest).length = 0))]
  rw [if_neg (by omega : ¬ ((r ++ rest).length < 12)), hbe,
    if_neg (by omega : ¬ ((r ++ rest).length < be32 (r.drop 8) + 12)),
    show be32 (r.drop 8) + 12 = r.length by omega, List.take_left]

theorem scanMrt_flatten (recs : List (List Nat)) (hwf : ∀ r ∈ recs, WfMrtRecord r) :
    scanMrt (recs.length + 1) recs.flatten = recs := by
  induction recs with
  | nil => rfl
  | cons r rest ih =>
    have hr := hwf r (List.mem_cons_self r rest)
    simp only [List.flatten_cons, List.length_cons]
    rw [scanMrt, splitMrt_wf_head r rest.flatten hr]
    simp only [List.drop_left]
    rw [ih (fun x hx => hwf x (List.mem_cons_of_mem r hx))]

/-- C3: the MRT splitter returns `(0, no token)` without consuming bytes
when (not at end of input) the data is shorter than the 12-byte fixed
header or shorter than `12 + payload_length`; at EOF with zero bytes it
signals end of stream (the same `(0, none)` pair, which bufio interprets
as end of stream at EOF); at EOF with remaining bytes it returns them
verbatim as one token; and scanning a concatenation of well-formed MRT
records yields exactly those records in order. -/
theorem splitMrt_contract :
    (∀ data : List Nat, data.length < 12 → SplitMrt data false = (0, none))
    ∧ (∀ data : List Nat, 12 ≤ data.length → data.length < 12 + be32 (data.drop 8) →
        SplitMrt data false = (0, none))
    ∧ SplitMrt [] true = (0, none)
    ∧ (∀ data : List Nat, data ≠ [] → SplitMrt data true = (data.length, some data))
    ∧ (∀ recs : List (List Nat), (∀ r ∈ recs, WfMrtRecord r) →
        scanMrt (recs.length + 1) recs.flatten = recs) := by
  refine ⟨?_, ?_, by decide, ?_, scanMrt_flatten⟩
  · intro data h
    simp only [SplitMrt, MRT_HEADER_LEN]
    rw [if_neg (by simp), if_neg (by simp), if_pos h]
  · intro data h1 h2
    simp only [SplitMrt, MRT_HEADER_LEN]
    rw [if_neg (by simp), if_neg (by simp), if_neg (by omega), if_pos (by omega)]
  · intro data hne
    have h0 : data.length ≠ 0 := fun h => hne (List.length_eq_zero.mp h)
    simp [SplitMrt, MRT_HEADER_LEN, h0]

/-- C3 witness: a 3-byte fragment gets "need more", the same fragment at
EOF comes back verbatim, and the concatenation of two concrete well-formed
records (payload lengths 1 and 0) scans to exactly those two records. -/
theorem splitMrt_contract_witness :
    SplitMrt [1, 2, 3] false = (0, none)
    ∧ SplitMrt [1, 2, 3] true = (3, some [1, 2, 3])
    ∧ scanMrt 3 ([[0, 0, 0, 0, 0, 16, 0, 1, 0, 0, 0, 1, 99],
        [0, 0, 0, 0, 0, 16, 0, 1, 0, 0, 0, 0]] : List (List Nat)).flatten
      = [[0, 0, 0, 0, 0, 16, 0, 1, 0, 0, 0, 1, 99], [0, 0, 0, 0, 0, 16, 0, 1, 0, 0, 0, 0]] :=
  ⟨splitMrt_contract.1 [1, 2, 3] (by decide),
    splitMrt_contract.2.2.2.1 [1, 2, 3] (by decide),
    splitMrt_contract.2.2.2.2 [[0, 0, 0, 0, 0, 16, 0, 1, 0, 0, 0, 1, 99],
      [0, 0, 0, 0, 0, 16, 0, 1, 0, 0, 0, 0]] (by decide)⟩

end Protoparse.Claims

namespace Protoparse.Claims
open Protoparse Protoparse.Bgp

/-- C6 counterexample: an attribute block holding one complete ORIGIN
attribute followed by a 2-byte tail — a partial attribute header — makes
`readAttrs` return a decode error ("not enough bytes for extended
attribute"), not the attributes decoded so far with no error. -/
theorem readAttrs_partial_header_counterexample :
    readAttrs [0, 1, 1, 0, 0, 2] false false = .err ∧
      ∀ (a : BGPAttrs) (madv mwdr : List PrefixWrap),
        readAttrs [0, 1, 1, 0, 0, 2] false false ≠ .ok a madv mwdr := by
  have h : readAttrs [0, 1, 1, 0, 0, 2] false false = .err := by decide
  exact ⟨h, fun a madv mwdr hok => by rw [h] at hok; exact AttrsResult.noConfusion hok⟩

/-- C6 amended: the attribute loop returns the attributes decoded so far
with no error when fewer than two bytes remain, and likewise — with the
partial header's four flag bits applied — when a complete 3- or 4-byte
header declares a length that overruns the remaining input; but a 2–3-byte
tail that cannot hold the full header, and an initial input shorter than
two bytes, are decode errors. -/
theorem readAttrs_tail_behavior :
    (∀ (as4 v6 : Bool) (n : Nat) (buf : List Nat) (acc : BGPAttrs)
        (madv mwdr : List PrefixWrap), buf.length < 2 →
        readAttrsLoop as4 v6 (n + 1) buf acc madv mwdr = .ok acc madv mwdr)
    ∧ (∀ (as4 v6 : Bool) (n : Nat) (buf : List Nat) (acc : BGPAttrs)
        (madv mwdr : List PrefixWrap),
        3 ≤ buf.length → buf.getD 0 0 &&& 16 = 0 →
        ¬ ((buf.getD 2 0 + 3) % 65536 ≤ buf.length) →
        readAttrsLoop as4 v6 (n + 1) buf acc madv mwdr =
          .ok { acc with
            OptionalBit := buf.getD 0 0 &&& 128 ≠ 0
            TransitiveBit := buf.getD 0 0 &&& 64 ≠ 0
            PartialBit := buf.getD 0 0 &&& 32 ≠ 0
            ExtendedBit := buf.getD 0 0 &&& 16 ≠ 0 } madv mwdr)
    ∧ (∀ (as4 v6 : Bool) (n : Nat) (buf : List Nat) (acc : BGPAttrs)
        (madv mwdr : List PrefixWrap),
        4 ≤ buf.length → buf.getD 0 0 &&& 16 ≠ 0 →
        ¬ ((be16 (buf.drop 2) + 4) % 65536 ≤ buf.length) →
        readAttrsLoop as4 v6 (n + 1) buf acc madv mwdr =
          .ok { acc with
            OptionalBit := buf.getD 0 0 &&& 128 ≠ 0
            TransitiveBit := buf.getD 0 0 &&& 64 ≠ 0
            PartialBit := buf.getD 0 0 &&& 32 ≠ 0
            ExtendedBit := buf.getD 0 0 &&& 16 ≠ 0 } madv mwdr)
    ∧ (∀ (as4 v6 : Bool) (n : Nat) (buf : List Nat) (acc : BGPAttrs)
        (madv mwdr : List PrefixWrap),
        2 ≤ buf.length → buf.length < 4 → buf.getD 0 0 &&& 16 ≠ 0 →
        readAttrsLoop as4 v6 (n + 1) buf acc madv mwdr = .err)
    ∧ (∀ (as4 v6 : Bool) (n : Nat) (buf : List Nat) (acc : BGPAttrs)
        (madv mwdr : List PrefixWrap),
        buf.length = 2 → buf.getD 0 0 &&& 16 = 0 →
        readAttrsLoop as4 v6 (n + 1) buf acc madv mwdr = .err)
    ∧ (∀ (buf : List Nat) (as4 v6 : Bool), buf.length < 2 →
        readAttrs buf as4 v6 = .err) := by
  refine ⟨?_, ?_, ?_, ?_, ?_, ?_⟩
  · intro as4 v6 n buf acc madv mwdr h
    simp only [readAttrsLoop]
    rw [if_pos h]
  · intro as4 v6 n buf acc madv mwdr hlen h16 hover
    simp only [readAttrsLoop]
    rw [if_neg (by omega : ¬ buf.length < 2)]
    simp only [List.getD_eq_getElem?_getD] at h16 hover
    simp [h16, hover, show ¬ buf.length < 3 by omega]
  · intro as4 v6 n buf acc madv mwdr hlen h16 hover
    simp only [readAttrsLoop]
    rw [if_neg (by omega : ¬ buf.length < 2)]
    simp only [List.getD_eq_getElem?_getD] at h16 hover
    simp [h16, hover, show ¬ buf.length < 4 by omega]
  · intro as4 v6 n buf acc madv mwdr h2 h4 h16
    simp only [readAttrsLoop]
    rw [if_neg (by omega : ¬ buf.length < 2)]
    simp only [List.getD_eq_getElem?_getD] at h16
    simp [h16, h4]
  · intro as4 v6 n buf acc madv mwdr h2 h16
    simp only [readAttrsLoop]
    rw [if_neg (by omega : ¬ buf.length < 2)]
    simp only [List.getD_eq_getElem?_getD] at h16
    have hlt3 : buf.length < 3 := by omega
    simp [h16, hlt3]
  · intro buf as4 v6 h
    rw [readAttrs, if_pos h]

/-- C6 witness: a 1-byte tail returns the accumulator untouched; a 3-byte
tail `[0, 8, 200]` with a complete non-extended header declaring 200 bytes
returns the accumulator with the header's flag bits applied; a 2-byte tail
`[16, 8]` with the extended-length bit set errors; and the 1-byte input
`[7]` errors at `readAttrs` itself. -/
theorem readAttrs_tail_behavior_witness :
    readAttrsLoop false false 1 [5] {} [] [] = .ok {} [] []
    ∧ readAttrsLoop false false 1 [0, 8, 200] {} [] [] = .ok {} [] []
    ∧ readAttrsLoop false false 1 [16, 8] {} [] [] = .err
    ∧ readAttrs [7] false false = .err :=
  ⟨readAttrs_tail_behavior.1 false false 0 [5] {} [] [] (by decide),
    readAttrs_tail_behavior.2.1 false false 0 [0, 8, 200] {} [] [] (by decide) (by decide)
      (by decide),
    readAttrs_tail_behavior.2.2.2.1 false false 0 [16, 8] {} [] [] (by decide) (by decide)
      (by decide),
    readAttrs_tail_behavior.2.2.2.2.2 [7] false false (by decide)⟩

end Protoparse.Claims

namespace Protoparse.Claims
open Protoparse Protoparse.Bgp Protoparse.Mbs Protoparse.Filter

theorem getLast?_eq_getD (l : List Nat) (h : l ≠ []) :
    l.getLast? = some (l.getD (l.length - 1) 0) := by
  rw [List.getLast?_eq_getElem?, List.getD_eq_getElem?_getD]
  cases hx : l[l.length - 1]? with
  | none =>
    rw [List.getElem?_eq_none_iff] at hx
    have : l.length ≠ 0 := fun hz => h (List.length_eq_zero.mp hz)
    omega
  | some v => simp

theorem head?_eq_getD (l : List Nat) (h : l ≠ []) :
    l.head? = some (l.getD 0 0) := by
  rcases l with _ | ⟨a, as⟩
  · exact absurd rfl h
  · rfl

theorem mem_midslice_iff (l : List Nat) (p : Nat → Bool) :
    (∃ x ∈ (l.drop 1).take (l.length - 2), p x = true) ↔
      (∃ i, 0 < i ∧ i + 1 < l.length ∧ p (l.getD i 0) = true) := by
  constructor
  · rintro ⟨x, hx, hp⟩
    rw [List.mem_iff_getElem?] at hx
    obtain ⟨j, hxj⟩ := hx
    have hj : j < l.length - 2 := by
      by_contra hge
      rw [List.getElem?_take, if_neg hge] at hxj
      exact Option.noConfusion hxj
    rw [List.getElem?_take, if_pos hj, List.getElem?_drop] at hxj
    have hjl : 1 + j < l.length := by
      by_contra hge
      rw [List.getElem?_eq_none_iff.mpr (by omega)] at hxj
      exact Option.noConfusion hxj
    refine ⟨j + 1, by omega, by omega, ?_⟩
    rw [List.getD_eq_getElem?_getD, show j + 1 = 1 + j from by omega, hxj]
    exact hp
  · rintro ⟨i, h0, hlt, hp⟩
    refine ⟨l.getD i 0, ?_, hp⟩
    rw [List.mem_iff_getElem?]
    refine ⟨i - 1, ?_⟩
    rw [List.getElem?_take, if_pos (by omega), List.getElem?_drop,
      show 1 + (i - 1) = i from by omega, List.getD_eq_getElem?_getD,
      List.getElem?_eq_getElem (by omega : i < l.length)]
    simp

/-- C7: provided the collapsed AS path of the stack is computed (no error),
the SOURCE filter accepts iff the path's last ASN is configured, the
DESTINATION filter iff its first ASN is, the MIDPATH filter iff some ASN
strictly between first and last is (which forces path length at least 3),
and the ANYWHERE filter iff any ASN is; an empty collapsed path is
rejected by all four. On AS_PATH `[SEQUENCE(1,2,3,4,5)]` with set `{3}`,
MIDPATH and ANYWHERE accept while SOURCE and DESTINATION reject. -/
theorem asn_position_filters :
    (∀ (asl : List Nat) (mbs : MrtBufferStack) (path : List Nat),
      GetASPath mbs = some path →
      ((FilterBySource asl mbs = true ↔
          ∃ x, path.getLast? = some x ∧ matchesOne asl x = true)
        ∧ (FilterByDest asl mbs = true ↔
            ∃ x, path.head? = some x ∧ matchesOne asl x = true)
        ∧ (FilterByMidPath asl mbs = true ↔
            ∃ i, 0 < i ∧ i + 1 < path.length ∧ matchesOne asl (path.getD i 0) = true)
        ∧ (FilterByAnywhere asl mbs = true ↔ ∃ x ∈ path, matchesOne asl x = true)
        ∧ (path = [] → FilterBySource asl mbs = false ∧ FilterByDest asl mbs = false
            ∧ FilterByMidPath asl mbs = false ∧ FilterByAnywhere asl mbs = false)))
    ∧ (FilterByMidPath [3] (.updateStack (some { Attrs := some { AsPath := [{ AsSeq := [1, 2, 3, 4, 5] }] } })) = true
        ∧ FilterByAnywhere [3] (.updateStack (some { Attrs := some { AsPath := [{ AsSeq := [1, 2, 3, 4, 5] }] } })) = true
        ∧ FilterBySource [3] (.updateStack (some { Attrs := some { AsPath := [{ AsSeq := [1, 2, 3, 4, 5] }] } })) = false
        ∧ FilterByDest [3] (.updateStack (some { Attrs := some { AsPath := [{ AsSeq := [1, 2, 3, 4, 5] }] } })) = false) := by
  constructor
  · intro asl mbs path h
    by_cases hne : path = []
    · subst hne
      simp [FilterBySource, FilterByDest, FilterByMidPath, FilterByAnywhere, h]
    · have hlen : 0 < path.length := List.length_pos.mpr hne
      refine ⟨?_, ?_, ?_, ?_, fun habs => absurd habs hne⟩
      · simp only [FilterBySource, h, if_neg (by omega : ¬ path.length < 1)]
        rw [getLast?_eq_getD path hne]
        simp
      · simp only [FilterByDest, h, if_neg (by omega : ¬ path.length < 1)]
        rw [head?_eq_getD path hne]
        simp
      · simp only [FilterByMidPath, h]
        by_cases h3 : path.length < 3
        · rw [if_pos h3]
          simp only [Bool.false_eq_true, false_iff]
          rintro ⟨i, h0, hlt, _⟩
          omega
        · rw [if_neg h3, List.any_eq_true]
          exact mem_midslice_iff path (matchesOne asl)
      · simp only [FilterByAnywhere, h, if_neg (by omega : ¬ path.length < 1)]
        exact List.any_eq_true
  · exact ⟨by decide, by decide, by decide, by decide⟩

/-- C7 witness: on the concrete stack with AS_PATH `[SEQUENCE(1,2,3,4,5)]`
the SOURCE filter for `{3}` is equivalent to membership of the last ASN 5,
hence false. -/
theorem asn_position_filters_witness :
    FilterBySource [3] (.updateStack (some { Attrs := some { AsPath := [{ AsSeq := [1, 2, 3, 4, 5] }] } })) = true
      ↔ ∃ x, ([1, 2, 3, 4, 5] : List Nat).getLast? = some x ∧ matchesOne [3] x = true :=
  (asn_position_filters.1 [3]
    (.updateStack (some { Attrs := some { AsPath := [{ AsSeq := [1, 2, 3, 4, 5] }] } }))
    [1, 2, 3, 4, 5] (by decide)).1

end Protoparse.Claims

namespace Protoparse.Claims
open Protoparse Protoparse.Pbfile

/-- C8: writing one record (`0xAA`) to a fresh footed record file and
closing it yields a file laid out as the length-prefixed record, then the
footer blob's own length prefix, then the JSON footer bytes, then the
big-endian JSON length and the magic 118864 — but the recorded footer has
`Numentries = 0`, not 1, because `RecordFile.Write` never increments the
entry counter (only the separate `IncEntries`, which no writer calls,
does). -/
theorem footedClose_entry_count :
    (FootedClose (RecordFileWrite {} [170]) "/tmp/t".toList).2.Numentries = 0
    ∧ (FootedClose (RecordFileWrite {} [170]) "/tmp/t".toList).2.Numentries ≠ 1
    ∧ (FootedClose (RecordFileWrite {} [170]) "/tmp/t".toList).1.file
        = be32enc 1 ++ [170]
          ++ be32enc (((jsonChars (MakeFooter "/tmp/t".toList 0)).map Char.toNat).length + 8)
          ++ (jsonChars (MakeFooter "/tmp/t".toList 0)).map Char.toNat
          ++ be32enc ((jsonChars (MakeFooter "/tmp/t".toList 0)).map Char.toNat).length
          ++ be32enc magicbytes := by
  refine ⟨rfl, by decide, ?_⟩
  decide

end Protoparse.Claims

namespace Protoparse.Claims
open Protoparse Protoparse.Bgp

/-- C4 counterexample: a v4 update with withdrawn block `10.0.0.0/8`, an
MP_UNREACH_NLRI attribute carrying `20.0.0.0/8` and an NLRI block
`30.0.0.0/8` decodes with withdrawn list `[10.0.0.0/8, 20.0.0.0/8]` — the
withdrawn-block prefix first and the MP_UNREACH-derived prefix appended
after it — not in the claim's MP-first order `[20.0.0.0/8, 10.0.0.0/8]`. -/
theorem updateParse_merge_counterexample :
    bgpUpdateParse [0, 2, 8, 10, 0, 8, 128, 15, 5, 0, 1, 1, 8, 20, 8, 30] false false
      = .ok { WithdrawnRoutes := some [⟨⟨some [10, 0, 0, 0], none⟩, 8⟩,
                ⟨⟨some [20, 0, 0, 0], none⟩, 8⟩],
              Attrs := some { OptionalBit := true, Types := [15] },
              AdvertizedRoutes := some [⟨⟨some [30, 0, 0, 0], none⟩, 8⟩] }
    ∧ ([⟨⟨some [10, 0, 0, 0], none⟩, 8⟩, ⟨⟨some [20, 0, 0, 0], none⟩, 8⟩] : List PrefixWrap)
      ≠ [⟨⟨some [20, 0, 0, 0], none⟩, 8⟩, ⟨⟨some [10, 0, 0, 0], none⟩, 8⟩] := by decide

theorem mergeWdr_getD (wdr0 : Option (List PrefixWrap)) (mpwdr : List PrefixWrap) :
    (if mpwdr ≠ [] then
        (match wdr0 with
          | none => some mpwdr
          | some l => some (l ++ mpwdr))
      else wdr0).getD []
      = wdr0.getD [] ++ mpwdr := by
  rcases wdr0 with _ | l <;> rcases mpwdr with _ | ⟨w, ws⟩ <;> simp

theorem mergeAdv_getD (mpadv nlri : List PrefixWrap) :
    (match (if mpadv ≠ [] then some mpadv else none : Option (List PrefixWrap)) with
      | none => some nlri
      | some l => some (l ++ nlri)).getD [] = mpadv ++ nlri := by
  rcases mpadv with _ | ⟨a, as⟩ <;> simp

theorem adv0_getD (mpadv : List PrefixWrap) :
    (if mpadv ≠ [] then some mpadv else none : Option (List PrefixWrap)).getD [] = mpadv := by
  rcases mpadv with _ | ⟨a, as⟩ <;> simp

end Protoparse.Claims

namespace Protoparse.Claims
open Protoparse Protoparse.Bgp

/-- C4 amended: for every BGP UPDATE payload that decodes successfully,
either the attribute-length field is zero (no attributes, no advertised
routes, withdrawn = the withdrawn-block prefixes), or the final advertised
prefix list is the ordered concatenation of the MP_REACH_NLRI-derived
prefixes followed by the NLRI-block prefixes (MP first), the final
withdrawn prefix list is the ordered concatenation of the
withdrawn-block prefixes followed by the MP_UNREACH_NLRI-derived prefixes
(MP last — the order the claim reverses), and the NLRI block length is
computed as total - 4 - attr_length - withdrawn_length. -/
theorem updateParse_merge :
    ∀ (payload : List Nat) (as4 v6 : Bool) (u : BGPUpdate),
      bgpUpdateParse payload v6 as4 = .ok u →
      ((updAttrlen payload = 0 ∧ u.Attrs = none ∧ u.AdvertizedRoutes = none ∧
          u.WithdrawnRoutes.getD [] = updWdrBlock payload v6)
        ∨ (updAttrlen payload ≠ 0 ∧ ∃ attrs mpadv mpwdr,
            readAttrs (((updTail payload).drop 2).take (updAttrlen payload)) as4 v6
              = .ok attrs mpadv mpwdr
            ∧ u.Attrs = some attrs
            ∧ u.AdvertizedRoutes.getD [] = mpadv ++ updNlriBlock payload v6
            ∧ u.WithdrawnRoutes.getD [] = updWdrBlock payload v6 ++ mpwdr)) := by
  intro payload as4 v6 u h
  simp only [bgpUpdateParse] at h
  split at h
  · simp at h
  · split at h
    · simp at h
    · simp at h
    · rename_i step1 heq
      split at heq
      · rename_i hA
        simp only [Option.some.injEq, Prod.mk.injEq] at heq
        obtain ⟨hb, hw0, hs⟩ := heq
        subst hb; subst hw0; subst hs
        have e1 : List.drop 2 payload = updTail payload := by
          simp [updTail, updWlen, hA]
        rw [e1] at h
        rw [show be16 (updTail payload) = updAttrlen payload from rfl] at h
        have hw : (none : Option (List PrefixWrap)).getD [] = updWdrBlock payload v6 := by
          simp [updWdrBlock, updWlen, hA]
        have e4 : (payload.length : Int) - 4 - (updAttrlen payload : Int) - ((0 : Nat) : Int)
            = updNlrilen payload := by
          simp [updNlrilen, updWlen, hA]
        rw [e4] at h
        split at h
        · simp at h
        · split at h
          · rename_i h0
            rw [UpdResult.ok.injEq] at h
            subst h
            exact Or.inl ⟨h0, rfl, rfl, hw⟩
          · rename_i h0
            split at h
            · simp at h
            · split at h
              · simp at h
              · simp at h
              · simp at h
              · rename_i attrs mpadv mpwdr heq2
                split at h
                · rename_i hle
                  rw [UpdResult.ok.injEq] at h
                  subst h
                  refine Or.inr ⟨h0, attrs, mpadv, mpwdr, heq2, rfl, ?_, ?_⟩
                  · have hnl : updNlriBlock payload v6 = [] := by
                      rw [updNlriBlock, if_neg (by omega)]
                    rw [hnl]
                    rcases mpadv with _ | ⟨a, as⟩ <;> simp
                  · rcases mpwdr with _ | ⟨w, ws⟩ <;> simp [← hw]
                · split at h
                  · simp at h
                  · rename_i hgt hpan
                    rw [UpdResult.ok.injEq] at h
                    subst h
                    refine Or.inr ⟨h0, attrs, mpadv, mpwdr, heq2, rfl, ?_, ?_⟩
                    · have hnl : updNlriBlock payload v6
                          = readPrefix ((((updTail payload).drop 2).drop (updAttrlen payload)).take
                              (updNlrilen payload).toNat) v6 := by
                        rw [updNlriBlock, if_pos (by omega)]
                      rw [hnl]
                      rcases mpadv with _ | ⟨a, as⟩ <;> simp
                    · rcases mpwdr with _ | ⟨w, ws⟩ <;> simp [← hw]
      · split at heq
        · simp at heq
        · split at heq
          · simp at heq
          · rename_i hA hlen1 hlen2
            simp only [Option.some.injEq, Prod.mk.injEq] at heq
            obtain ⟨hb, hw0, hs⟩ := heq
            subst hb; subst hw0; subst hs
            have e1 : List.drop (be16 payload) (List.drop 2 payload) = updTail payload := by
              simp [updTail, updWlen, hA]
            rw [e1] at h
            rw [show be16 (updTail payload) = updAttrlen payload from rfl] at h
            have hw : (some (readPrefix (List.take (be16 payload) (List.drop 2 payload)) v6) :
                Option (List PrefixWrap)).getD [] = updWdrBlock payload v6 := by
              simp [updWdrBlock, updWlen, hA]
            have e4 : (payload.length : Int) - 4 - (updAttrlen payload : Int)
                - ((be16 payload : Nat) : Int) = updNlrilen payload := by
              simp [updNlrilen, updWlen, updAttrlen]
            rw [e4] at h
            split at h
            · simp at h
            · split at h
              · rename_i h0
                rw [UpdResult.ok.injEq] at h
                subst h
                exact Or.inl ⟨h0, rfl, rfl, hw⟩
              · rename_i h0
                split at h
                · simp at h
                · split at h
                  · simp at h
                  · simp at h
                  · simp at h
                  · rename_i attrs mpadv mpwdr heq2
                    split at h
                    · rename_i hle
                      rw [UpdResult.ok.injEq] at h
                      subst h
                      refine Or.inr ⟨h0, attrs, mpadv, mpwdr, heq2, rfl, ?_, ?_⟩
                      · have hnl : updNlriBlock payload v6 = [] := by
                          rw [updNlriBlock, if_neg (by omega)]
                        rw [hnl]
                        rcases mpadv with _ | ⟨a, as⟩ <;> simp
                      · rcases mpwdr with _ | ⟨w, ws⟩ <;> simp [← hw]
                    · split at h
                      · simp at h
                      · rename_i hgt hpan
                        rw [UpdResult.ok.injEq] at h
                        subst h
                        refine Or.inr ⟨h0, attrs, mpadv, mpwdr, heq2, rfl, ?_, ?_⟩
                        · have hnl : updNlriBlock payload v6
                              = readPrefix ((((updTail payload).drop 2).drop (updAttrlen payload)).take
                                  (updNlrilen payload).toNat) v6 := by
                            rw [updNlriBlock, if_pos (by omega)]
                          rw [hnl]
                          rcases mpadv with _ | ⟨a, as⟩ <;> simp
                        · rcases mpwdr with _ | ⟨w, ws⟩ <;> simp [← hw]


/-- C4 witness: the 4-byte all-zero update payload decodes successfully to
the empty update, taking the zero-attribute-length disjunct. -/
theorem updateParse_merge_witness :
    (updAttrlen [0, 0, 0, 0] = 0 ∧ ({} : BGPUpdate).Attrs = none
      ∧ ({} : BGPUpdate).AdvertizedRoutes = none
      ∧ ({} : BGPUpdate).WithdrawnRoutes.getD [] = updWdrBlock [0, 0, 0, 0] false)
    ∨ (updAttrlen [0, 0, 0, 0] ≠ 0 ∧ ∃ attrs mpadv mpwdr,
        readAttrs (((updTail [0, 0, 0, 0]).drop 2).take (updAttrlen [0, 0, 0, 0])) false false
          = .ok attrs mpadv mpwdr
        ∧ ({} : BGPUpdate).Attrs = some attrs
        ∧ ({} : BGPUpdate).AdvertizedRoutes.getD [] = mpadv ++ updNlriBlock [0, 0, 0, 0] false
        ∧ ({} : BGPUpdate).WithdrawnRoutes.getD []
            = updWdrBlock [0, 0, 0, 0] false ++ mpwdr) :=
  updateParse_merge [0, 0, 0, 0] false false {} (by decide)

end Protoparse.Claims

namespace Protoparse.Claims
open Protoparse Protoparse.Util

theorem bitChars_cons (a : Nat) (l : List Nat) :
    bitChars (a :: l) = byteBits a ++ bitChars l := by
  simp [bitChars]

theorem bitChars_length (l : List Nat) : (bitChars l).length = 8 * l.length := by
  induction l with
  | nil => rfl
  | cons a l ih =>
    rw [bitChars_cons, List.length_append, ih]
    simp [byteBits]
    omega

theorem bitChars_getElem? (l : List Nat) (i : Nat) (h : i < 8 * l.length) :
    (bitChars l)[i]? = some (if (l.getD (i / 8) 0).testBit (7 - i % 8) then '1' else '0') := by
  induction l generalizing i with
  | nil => simp at h
  | cons a l ih =>
    rw [bitChars_cons]
    by_cases hi : i < 8
    · rw [List.getElem?_append_left (by simp [byteBits]; omega)]
      rw [Nat.div_eq_of_lt hi, Nat.mod_eq_of_lt hi]
      simp [byteBits, List.getElem?_range hi]
    · rw [List.getElem?_append_right (by simp [byteBits]; omega)]
      have hlen : (byteBits a).length = 8 := by simp [byteBits]
      rw [hlen]
      rw [ih (i - 8) (by simp at h; omega)]
      have e1 : (i - 8) / 8 = i / 8 - 1 := by omega
      have e2 : (i - 8) % 8 = i % 8 := by omega
      have e3 : i / 8 = (i / 8 - 1) + 1 := by omega
      rw [e1, e2, e3, List.getD_cons_succ]
      simp

theorem cidr_testBit (m q r : Nat) (hr : r < 8) (hlt : 8 * q + r < m) :
    (cidrMaskByte m q).testBit (7 - r) = true := by
  have hd : cidrMaskByte m q = 255 - (255 >>> (m - 8 * q)) := rfl
  set d := m - 8 * q with hdd
  have hrd : r < d := by omega
  rcases le_or_lt 8 d with h8 | h8
  · have hz : (255 : Nat) >>> d = 0 := by
      rw [Nat.shiftRight_eq_div_pow]
      exact Nat.div_eq_of_lt (lt_of_lt_of_le (by norm_num)
        (Nat.pow_le_pow_right (by norm_num) h8))
    rw [hd, hz]
    rw [show (255 - 0 : Nat) = 2 ^ 8 - 1 by norm_num, Nat.testBit_two_pow_sub_one]
    simp
    omega
  · rw [hd]
    have hd1 : 1 ≤ d := by omega
    interval_cases d <;> interval_cases r <;> rfl

theorem take_bitChars_mask (eb : List Nat) (m : Nat) (hm : m ≤ 8 * eb.length) :
    (bitChars (eb.zipWith (· &&& ·) ((List.range eb.length).map (cidrMaskByte m)))).take m
      = (bitChars eb).take m := by
  have hzwlen : (eb.zipWith (· &&& ·) ((List.range eb.length).map (cidrMaskByte m))).length
      = eb.length := by
    simp
  apply List.ext_getElem?
  intro i
  by_cases hi : i < m
  · rw [List.getElem?_take, if_pos hi, List.getElem?_take, if_pos hi]
    rw [bitChars_getElem? _ i (by rw [hzwlen]; omega), bitChars_getElem? _ i (by omega)]
    have hk : i / 8 < eb.length := by omega
    have hgd : (eb.zipWith (· &&& ·) ((List.range eb.length).map (cidrMaskByte m))).getD (i / 8) 0
        = eb.getD (i / 8) 0 &&& cidrMaskByte m (i / 8) := by
      rw [List.getD_eq_getElem _ _ (by rw [hzwlen]; omega),
        List.getD_eq_getElem _ _ hk, List.getElem_zipWith]
      congr 1
      rw [List.getElem_map, List.getElem_range]
    rw [hgd, Nat.testBit_land]
    rw [cidr_testBit m (i / 8) (i % 8) (Nat.mod_lt _ (by norm_num))
      (by rw [Nat.div_add_mod]; omega)]
    simp
  · rw [List.getElem?_take, if_neg hi, List.getElem?_take, if_neg hi]

end Protoparse.Claims

namespace Protoparse.Claims
open Protoparse Protoparse.Util

theorem key4_eq (b : List Nat) (mask : Nat) (hb : b.length = 4) (hm : mask ≤ 32) :
    IpToRadixkey b mask = some ((bitChars b).take mask) := by
  have h1 : goTo4 b = some b := by rw [goTo4, if_pos hb]
  have hcidr : (goCIDRMask mask 32).length = 4 := by simp [goCIDRMask]
  have hzwlen : (b.zipWith (· &&& ·) (goCIDRMask mask 32)).length = 4 := by
    simp [hb, hcidr]
  have h2 : goMask b (goCIDRMask mask 32) = some (b.zipWith (· &&& ·) (goCIDRMask mask 32)) := by
    simp only [goMask]
    rw [if_neg (by simp [hcidr] :
      ¬ ((goCIDRMask mask 32).length = 16 ∧ b.length = 4 ∧
        (goCIDRMask mask 32).take 12 = List.replicate 12 255))]
    rw [if_neg (by simp [hb] :
      ¬ ((goCIDRMask mask 32).length = 4 ∧ b.length = 16 ∧ b.take 12 = v4InV6))]
    rw [if_pos (by rw [hb, hcidr])]
  have h3 : goTo4 (b.zipWith (· &&& ·) (goCIDRMask mask 32))
      = some (b.zipWith (· &&& ·) (goCIDRMask mask 32)) := by
    rw [goTo4, if_pos hzwlen]
  have hbl : (bitChars (b.zipWith (· &&& ·) (goCIDRMask mask 32))).length = 32 := by
    rw [bitChars_length, hzwlen]
  have hmask : goCIDRMask mask 32 = (List.range b.length).map (cidrMaskByte mask) := by
    rw [hb]; rfl
  simp only [IpToRadixkey]
  rw [if_neg (by omega), if_pos (by rw [h1]; rfl), if_neg (by omega)]
  rw [h2, Option.some_bind, h3]
  rw [strTake, if_pos (by rw [optBytes, Option.getD_some, hbl]; omega)]
  rw [optBytes, Option.getD_some, hmask, take_bitChars_mask b mask (by omega)]

theorem key16_eq (b : List Nat) (mask : Nat) (hb : b.length = 16) (h4 : goTo4 b = none)
    (hm : mask ≤ 128) :
    IpToRadixkey b mask = some ((bitChars b).take mask) := by
  have hcidr : (goCIDRMask mask 128).length = 16 := by simp [goCIDRMask]
  have hzwlen : (b.zipWith (· &&& ·) (goCIDRMask mask 128)).length = 16 := by
    simp [hb, hcidr]
  have h2 : goMask b (goCIDRMask mask 128) = some (b.zipWith (· &&& ·) (goCIDRMask mask 128)) := by
    simp only [goMask]
    rw [if_neg (by simp [hb] :
      ¬ ((goCIDRMask mask 128).length = 16 ∧ b.length = 4 ∧
        (goCIDRMask mask 128).take 12 = List.replicate 12 255))]
    rw [if_neg (by simp [hcidr] :
      ¬ ((goCIDRMask mask 128).length = 4 ∧ b.length = 16 ∧ b.take 12 = v4InV6))]
    rw [if_pos (by rw [hb, hcidr])]
  have h3 : goTo16 (b.zipWith (· &&& ·) (goCIDRMask mask 128))
      = some (b.zipWith (· &&& ·) (goCIDRMask mask 128)) := by
    rw [goTo16, if_neg (by omega), if_pos hzwlen]
  have hbl : (bitChars (b.zipWith (· &&& ·) (goCIDRMask mask 128))).length = 128 := by
    rw [bitChars_length, hzwlen]
  have hmask : goCIDRMask mask 128 = (List.range b.length).map (cidrMaskByte mask) := by
    rw [hb]; rfl
  simp only [IpToRadixkey]
  rw [if_neg (by omega), if_neg (by rw [h4]; simp), if_neg (by omega)]
  rw [h2, Option.some_bind, h3]
  rw [strTake, if_pos (by rw [optBytes, Option.getD_some, hbl]; omega)]
  rw [optBytes, Option.getD_some, hmask, take_bitChars_mask b mask (by omega)]

end Protoparse.Claims

namespace Protoparse.Claims
open Protoparse Protoparse.Util

/-- C2: for every address byte-string (4-byte IPv4, or 16-byte IPv6 that
is not IPv4-mapped) and mask within the family width, `IpToRadixkey`
returns the big-endian bit-string of the CIDR-masked address truncated to
exactly `mask` characters — its length equals `mask` and the key for
`mask` is a bit-prefix of the key for any `mask' ≥ mask`; it returns the
empty string for an empty address or a mask beyond the family width; and
`(10.0.12.0, /24)` yields "000010100000000000001100" while
`(0.0.0.0, /0)` yields the empty string. -/
theorem ipToRadixkey_canonical :
    (∀ (b : List Nat) (mask : Nat), b.length = 4 → mask ≤ 32 →
      ∃ k, IpToRadixkey b mask = some k ∧ k.length = mask ∧
        ∀ mask', mask ≤ mask' → mask' ≤ 32 →
          ∃ k', IpToRadixkey b mask' = some k' ∧ k <+: k')
    ∧ (∀ (b : List Nat) (mask : Nat), b.length = 16 → goTo4 b = none → mask ≤ 128 →
      ∃ k, IpToRadixkey b mask = some k ∧ k.length = mask ∧
        ∀ mask', mask ≤ mask' → mask' ≤ 128 →
          ∃ k', IpToRadixkey b mask' = some k' ∧ k <+: k')
    ∧ (∀ mask, IpToRadixkey [] mask = some [])
    ∧ (∀ (b : List Nat) (mask : Nat), b.length = 4 → 32 < mask → IpToRadixkey b mask = some [])
    ∧ (∀ (b : List Nat) (mask : Nat), b.length = 16 → goTo4 b = none → 128 < mask →
        IpToRadixkey b mask = some [])
    ∧ IpToRadixkey [10, 0, 12, 0] 24 = some "000010100000000000001100".toList
    ∧ IpToRadixkey [0, 0, 0, 0] 0 = some [] := by
  have tmono : ∀ (x : List Char) (m m' : Nat), m ≤ m' → x.take m <+: x.take m' := by
    intro x m m' h
    have e : (x.take m').take m = x.take m := by
      rw [List.take_take, min_eq_left h]
    rw [← e]
    exact List.take_prefix m (x.take m')
  refine ⟨?_, ?_, ?_, ?_, ?_, by decide, by decide⟩
  · intro b mask hb hm
    refine ⟨(bitChars b).take mask, key4_eq b mask hb hm, ?_, ?_⟩
    · rw [List.length_take, bitChars_length, hb]; omega
    · intro mask' hmm' hm'
      exact ⟨(bitChars b).take mask', key4_eq b mask' hb hm', tmono _ _ _ hmm'⟩
  · intro b mask hb h4 hm
    refine ⟨(bitChars b).take mask, key16_eq b mask hb h4 hm, ?_, ?_⟩
    · rw [List.length_take, bitChars_length, hb]; omega
    · intro mask' hmm' hm'
      exact ⟨(bitChars b).take mask', key16_eq b mask' hb h4 hm', tmono _ _ _ hmm'⟩
  · intro mask
    simp only [IpToRadixkey]
    rw [if_pos (show ([] : List Nat).length = 0 from rfl)]
  · intro b mask hb hgt
    simp only [IpToRadixkey]
    rw [if_neg (by omega), if_pos (by rw [goTo4, if_pos hb]; rfl), if_pos hgt]
  · intro b mask hb h4 hgt
    simp only [IpToRadixkey]
    rw [if_neg (by omega), if_neg (by rw [h4]; simp), if_pos hgt]

/-- C2 witness: the canonicity statement instantiated at `(10.0.12.0, /24)`
and at the IPv6 test vector `2001:0000:3238:DFE1:63::FEFB/120` of the
repository's own test suite. -/
theorem ipToRadixkey_canonical_witness :
    (∃ k, IpToRadixkey [10, 0, 12, 0] 24 = some k ∧ k.length = 24 ∧
      ∀ mask', 24 ≤ mask' → mask' ≤ 32 →
        ∃ k', IpToRadixkey [10, 0, 12, 0] mask' = some k' ∧ k <+: k')
    ∧ (∃ k, IpToRadixkey [32, 1, 0, 0, 50, 56, 223, 225, 0, 99, 0, 0, 0, 0, 254, 251] 120
          = some k ∧ k.length = 120 ∧
        ∀ mask', 120 ≤ mask' → mask' ≤ 128 →
          ∃ k', IpToRadixkey [32, 1, 0, 0, 50, 56, 223, 225, 0, 99, 0, 0, 0, 0, 254, 251] mask'
              = some k' ∧ k <+: k') :=
  ⟨ipToRadixkey_canonical.1 [10, 0, 12, 0] 24 (by decide) (by decide),
    ipToRadixkey_canonical.2.1 [32, 1, 0, 0, 50, 56, 223, 225, 0, 99, 0, 0, 0, 0, 254, 251] 120
      (by decide) (by decide) (by decide)⟩

end Protoparse.Claims
